import Mathlib

/-!
Verification of the Skychitect diagram-to-structured-architecture pipeline.

We shallowly embed the Python source of
`backend/agents/image_analysis_agent.py`, `backend/utils/image_processor.py`
and `backend/utils/pdf_converter.py`: Python strings become `List Char`,
Python dicts parsed from JSON become an explicit `Json` value type, machine
floats in JSON numbers are modelled as exact rationals, fallible Python code
returns an explicit outcome type distinguishing returned values from
propagating exceptions.
-/

/-- Convert a Lean string literal to the `List Char` representation used for
Python strings throughout this development. -/
def cs (s : String) : List Char := s.toList

/-- `startsWith pat s` is true when `pat` is an initial segment of `s`
(character-by-character comparison, as Python substring matching does). -/
def startsWith : List Char → List Char → Bool
  | [], _ => true
  | _ :: _, [] => false
  | p :: ps, c :: rest => p == c && startsWith ps rest

/-- Scan `s` (whose first character sits at absolute index `i`) for the first
position where `pat` matches; `none` when there is no match.  This is the
search loop underlying Python `str.find`. -/
def findAux (pat : List Char) : List Char → Nat → Option Nat
  | s, i =>
    if startsWith pat s then some i
    else
      match s with
      | [] => none
      | _ :: t => findAux pat t (i + 1)

/-- Python `s.find(pat, start)`: absolute index of the first occurrence of
`pat` at or after `start`, or `-1` when there is none. -/
def pyFind (s pat : List Char) (start : Nat) : Int :=
  match findAux pat (s.drop start) start with
  | some i => (i : Int)
  | none => -1

/-- Python `pat in s` substring test (as used by `"```json" in response_text`). -/
def pyContains (s pat : List Char) : Bool := (findAux pat s 0).isSome

/-- Normalise one Python slice index against a string of length `len`:
negative indices count from the end, and indices are clamped into `[0, len]`. -/
def pyIdx (len : Nat) (i : Int) : Nat :=
  if i < 0 then (max (i + len) 0).toNat else min i.toNat len

/-- Python slice `s[a:b]` (with possibly negative `b`, as in `s[start:-1]`
when a closing fence is missing). -/
def pySlice (s : List Char) (a b : Int) : List Char :=
  (s.take (pyIdx s.length b)).drop (pyIdx s.length a)

/-- The ASCII whitespace characters removed by Python `str.strip()`. -/
def pyWs (c : Char) : Bool :=
  c == ' ' || c == '\t' || c == '\n' || c == '\r' || c == '\x0b' || c == '\x0c'

/-- Python `s.strip()`: remove leading and trailing whitespace. -/
def pyStrip (s : List Char) : List Char :=
  ((s.dropWhile pyWs).reverse.dropWhile pyWs).reverse

/-- The substring-selection logic at the top of `_parse_analysis_response`
(image_analysis_agent.py lines 175-187): first a ```json fenced block, then a
generic ``` fenced block, else the whole stripped text. -/
def selectJson (response_text : List Char) : List Char :=
  if pyContains response_text (cs "```json") then
    let start : Int := pyFind response_text (cs "```json") 0 + 7
    let e : Int := pyFind response_text (cs "```") start.toNat
    pyStrip (pySlice response_text start e)
  else if pyContains response_text (cs "```") then
    let start : Int := pyFind response_text (cs "```") 0 + 3
    let e : Int := pyFind response_text (cs "```") start.toNat
    pyStrip (pySlice response_text start e)
  else
    pyStrip response_text

/-!
## JSON model

`json.loads` is embedded as a recursive-descent parser over `List Char`
returning a `Json` value.  Numbers are represented exactly as rationals
(Python's separate int/float representations both compare equal to the same
rational for every value the claims touch).  Objects keep their key/value
pairs in parse order; a repeated key shadows the earlier one on lookup, as a
Python dict built by the json decoder does.  The strict JSON grammar is
modelled (CPython additionally accepts `NaN`/`Infinity` literals, which no
claim exercises).
-/

inductive Json where
  | null : Json
  | bool (b : Bool) : Json
  | num (q : ℚ) : Json
  | str (s : List Char) : Json
  | arr (xs : List Json) : Json
  | obj (kvs : List (List Char × Json)) : Json

mutual

/-- Structural equality test on JSON values; models Python `==` between the
values the json decoder produces.  (Python's `1 == True` quirk is invisible
here: no claim compares a bool with a number.) -/
def Json.beq : Json → Json → Bool
  | .null, .null => true
  | .bool a, .bool b => a == b
  | .num a, .num b => a == b
  | .str a, .str b => a == b
  | .arr xs, .arr ys => Json.beqArr xs ys
  | .obj a, .obj b => Json.beqObj a b
  | _, _ => false

/-- Elementwise equality of JSON arrays. -/
def Json.beqArr : List Json → List Json → Bool
  | [], [] => true
  | x :: xs, y :: ys => Json.beq x y && Json.beqArr xs ys
  | _, _ => false

/-- Pairwise equality of object member lists. -/
def Json.beqObj : List (List Char × Json) → List (List Char × Json) → Bool
  | [], [] => true
  | (k1, v1) :: xs, (k2, v2) :: ys => k1 == k2 && Json.beq v1 v2 && Json.beqObj xs ys
  | _, _ => false

end

/-- The whitespace characters the JSON grammar allows between tokens. -/
def jsonWs (c : Char) : Bool := c == ' ' || c == '\t' || c == '\n' || c == '\r'

/-- Skip inter-token whitespace. -/
def skipWs (s : List Char) : List Char := s.dropWhile jsonWs

/-- Decimal digit test. -/
def isDigit (c : Char) : Bool := '0' ≤ c && c ≤ '9'

/-- Value of a decimal digit character. -/
def digitVal (c : Char) : Nat := c.toNat - '0'.toNat

/-- Value of a list of decimal digit characters. -/
def digitsVal (l : List Char) : Nat := l.foldl (fun a c => 10 * a + digitVal c) 0

/-- Hexadecimal digit test (for `\uXXXX` escapes). -/
def isHex (c : Char) : Bool :=
  isDigit c || ('a' ≤ c && c ≤ 'f') || ('A' ≤ c && c ≤ 'F')

/-- Value of a hexadecimal digit character. -/
def hexVal (c : Char) : Nat :=
  if isDigit c then digitVal c
  else if 'a' ≤ c && c ≤ 'f' then c.toNat - 'a'.toNat + 10
  else c.toNat - 'A'.toNat + 10

/-- The single-character escape table of the JSON grammar. -/
def escChar (e : Char) : Option Char :=
  if e == '"' then some '"'
  else if e == '\\' then some '\\'
  else if e == '/' then some '/'
  else if e == 'b' then some '\x08'
  else if e == 'f' then some '\x0c'
  else if e == 'n' then some '\n'
  else if e == 'r' then some '\r'
  else if e == 't' then some '\t'
  else none

/-- Parse the body of a JSON string after the opening quote, handling the
standard escape sequences; raw control characters are rejected as CPython's
strict decoder does.  (A lone `\uXXXX` surrogate half is mapped to the
default character; no claim exercises surrogate pairs.) -/
def parseStringBody : List Char → Option (List Char × List Char)
  | [] => none
  | '\\' :: 'u' :: h1 :: h2 :: h3 :: h4 :: r' =>
    if isHex h1 && isHex h2 && isHex h3 && isHex h4 then
      let v := ((hexVal h1 * 16 + hexVal h2) * 16 + hexVal h3) * 16 + hexVal h4
      (parseStringBody r').map (fun p => (Char.ofNat v :: p.1, p.2))
    else none
  | '\\' :: e :: r =>
    match escChar e with
    | some c => (parseStringBody r).map (fun p => (c :: p.1, p.2))
    | none => none
  | c :: r =>
    if c == '"' then some ([], r)
    else if c.toNat < 0x20 then none
    else (parseStringBody r).map (fun p => (c :: p.1, p.2))

/-- Take a maximal run of decimal digits. -/
def takeDigits (s : List Char) : List Char × List Char :=
  (s.takeWhile isDigit, s.dropWhile isDigit)

/-- Parse a JSON number (`-? (0 | [1-9][0-9]*) frac? exp?`), exactly the
regular expression CPython's json scanner uses: a leading `0` is not followed
by further integer digits, a fraction or exponent is consumed only when at
least one digit follows it. -/
def parseNumber (s : List Char) : Option (ℚ × List Char) :=
  let (neg, s1) := match s with
    | '-' :: r => (true, r)
    | _ => (false, s)
  let intPart : Option (Nat × List Char) :=
    match s1 with
    | [] => none
    | c :: r =>
      if c == '0' then some (0, r)
      else if isDigit c then
        let (ds, r') := takeDigits r
        some (digitsVal (c :: ds), r')
      else none
  intPart.bind (fun (ip, r1) =>
    let (fracDigits, r2) : List Char × List Char :=
      match r1 with
      | '.' :: rf =>
        let (ds, r') := takeDigits rf
        if ds.isEmpty then ([], r1) else (ds, r')
      | _ => ([], r1)
    let (expOk, expVal, r3) : Bool × Int × List Char :=
      match r2 with
      | e :: rest =>
        if e == 'e' || e == 'E' then
          let (esign, rest') : Int × List Char := match rest with
            | '+' :: rr => (1, rr)
            | '-' :: rr => (-1, rr)
            | _ => (1, rest)
          let (ds, r') := takeDigits rest'
          if ds.isEmpty then (true, 0, r2) else (true, esign * digitsVal ds, r')
        else (true, 0, r2)
      | [] => (true, 0, r2)
    let mantissa : ℚ := (ip : ℚ) + (digitsVal fracDigits : ℚ) / (10 ^ fracDigits.length : ℚ)
    let signed : ℚ := if neg then -mantissa else mantissa
    let value : ℚ := signed * (10 : ℚ) ^ expVal
    if expOk then some (value, r3) else none)

/-- Parse a comma-separated run of array elements after the first element
position, using `pv` to parse one value; mirrors the json decoder's array
loop.  `fuel` bounds the number of elements. -/
def parseElems (pv : List Char → Option (Json × List Char)) :
    Nat → List Char → Option (List Json × List Char)
  | 0, _ => none
  | fuel + 1, s =>
    (pv s).bind (fun (v, r) =>
      match skipWs r with
      | ']' :: r' => some ([v], r')
      | ',' :: r' =>
        (parseElems pv fuel (skipWs r')).map (fun (vs, r'') => (v :: vs, r''))
      | _ => none)

/-- Parse a comma-separated run of object members after the first member
position: a string key, a colon, a value. -/
def parseMembers (pv : List Char → Option (Json × List Char)) :
    Nat → List Char → Option (List (List Char × Json) × List Char)
  | 0, _ => none
  | fuel + 1, s =>
    match s with
    | '"' :: r =>
      (parseStringBody r).bind (fun (k, r1) =>
        match skipWs r1 with
        | ':' :: r2 =>
          (pv (skipWs r2)).bind (fun (v, r3) =>
            match skipWs r3 with
            | '}' :: r4 => some ([(k, v)], r4)
            | ',' :: r4 =>
              (parseMembers pv fuel (skipWs r4)).map
                (fun (kvs, r5) => ((k, v) :: kvs, r5))
            | _ => none)
        | _ => none)
    | _ => none

/-- Parse one JSON value at the head of `s` (no leading whitespace).  `fuel`
bounds recursion depth and aggregate sizes; `jsonLoads` supplies enough for
any input. -/
def parseVal : Nat → List Char → Option (Json × List Char)
  | 0, _ => none
  | fuel + 1, s =>
    match s with
    | 'n' :: 'u' :: 'l' :: 'l' :: r => some (.null, r)
    | 't' :: 'r' :: 'u' :: 'e' :: r => some (.bool true, r)
    | 'f' :: 'a' :: 'l' :: 's' :: 'e' :: r => some (.bool false, r)
    | '"' :: r => (parseStringBody r).map (fun (t, r') => (.str t, r'))
    | '[' :: r =>
      match skipWs r with
      | ']' :: r' => some (.arr [], r')
      | r1 => (parseElems (parseVal fuel) fuel r1).map (fun (vs, r') => (.arr vs, r'))
    | '{' :: r =>
      match skipWs r with
      | '}' :: r' => some (.obj [], r')
      | r1 => (parseMembers (parseVal fuel) fuel r1).map (fun (kvs, r') => (.obj kvs, r'))
    | _ => (parseNumber s).map (fun (q, r') => (.num q, r'))

/-- Python `json.loads` on the embedded string: parse one value surrounded by
optional whitespace; any other trailing characters are a decode error. -/
def jsonLoads (s : List Char) : Option Json :=
  match parseVal (s.length + 1) (skipWs s) with
  | some (v, rest) => if skipWs rest = [] then some v else none
  | none => none

/-!
## Response Extractor (`_parse_analysis_response`)

The function body runs inside `try ... except json.JSONDecodeError`: only a
JSON decode failure is converted into the default structure; every other
exception raised in the body (the explicit `ValueError` for a missing
required field, and the `AttributeError`/`TypeError`/`KeyError` the logging
f-string can raise) propagates to the caller.  `PyOutcome` separates a
returned value from a propagating exception.
-/

/-- The Python exceptions the embedded code can let escape. -/
inductive PyExn where
  | valueError (msg : List Char) : PyExn
  | typeError : PyExn
  | attributeError : PyExn
  | keyError : PyExn
  | clientError (msg : List Char) : PyExn
deriving DecidableEq

/-- Result of running a piece of Python code: a returned value, or an
exception propagating out. -/
inductive PyOutcome (α : Type) where
  | ok (a : α) : PyOutcome α
  | raised (e : PyExn) : PyOutcome α

/-- Dict lookup on the parsed object: the last binding of a repeated key
wins, as in a Python dict built by successive assignments. -/
def dictGet (kvs : List (List Char × Json)) (k : List Char) : Option Json :=
  kvs.foldl (fun acc kv => if kv.1 = k then some kv.2 else acc) none

/-- Python `key in value` for a string key against a decoded JSON value:
membership for a dict, element equality for a list, substring test for a
string, and a `TypeError` for the non-iterable types. -/
def pyInB (k : List Char) (v : Json) : PyOutcome Bool :=
  match v with
  | .obj kvs => .ok (kvs.any (fun kv => kv.1 == k))
  | .arr xs => .ok (xs.any (fun x => Json.beq x (.str k)))
  | .str t => .ok (findAux k t 0).isSome
  | _ => .raised .typeError

/-- Python `value[key]` for a string key: dict lookup (`KeyError` when
absent); every other decoded type raises `TypeError` for a string index. -/
def pySub (v : Json) (k : List Char) : PyOutcome Json :=
  match v with
  | .obj kvs =>
    match dictGet kvs k with
    | some x => .ok x
    | none => .raised .keyError
  | _ => .raised .typeError

/-- The four keys `_parse_analysis_response` requires, in check order. -/
def requiredFields : List (List Char) :=
  [cs "provider", cs "detected_components", cs "complexity",
   cs "estimated_monthly_cost"]

/-- The validation loop of `_parse_analysis_response` (lines 193-196): the
first missing field raises `ValueError`; a non-container value raises
`TypeError` at the `in` test.  `none` means the loop completed silently. -/
def checkFields : List (List Char) → Json → Option PyExn
  | [], _ => none
  | f :: rest, d =>
    match pyInB f d with
    | .raised e => some e
    | .ok true => checkFields rest d
    | .ok false => some (.valueError (cs "Missing required field: " ++ f))

/-- The subscripts and method calls evaluated by the success-path logging
f-string (line 198): `data['provider'].upper()` needs a string,
`len(data['detected_components'])` needs a sized value,
`data['estimated_monthly_cost']` only needs the subscript to succeed.
`none` means the f-string evaluates without raising. -/
def logEval (d : Json) : Option PyExn :=
  match pySub d (cs "provider") with
  | .raised e => some e
  | .ok pv =>
    match pv with
    | .str _ =>
      match pySub d (cs "detected_components") with
      | .raised e => some e
      | .ok dc =>
        match dc with
        | .arr _ | .str _ | .obj _ =>
          match pySub d (cs "estimated_monthly_cost") with
          | .raised e => some e
          | .ok _ => none
        | _ => some .typeError
    | _ => some .attributeError

/-- The default failure-shaped structure returned when JSON decoding fails
(lines 207-215), with the first 500 characters of the raw response attached. -/
def defaultResult (response_text : List Char) : Json :=
  .obj
    [(cs "provider", .str (cs "aws")),
     (cs "detected_components", .arr []),
     (cs "complexity", .str (cs "medium")),
     (cs "estimated_monthly_cost", .num 0),
     (cs "connections", .arr []),
     (cs "error", .str (cs "Failed to parse AI response")),
     (cs "raw_response", .str (response_text.take 500))]

/-- `_parse_analysis_response` (image_analysis_agent.py lines 170-215):
select a candidate substring, JSON-decode it, validate the required fields,
log, and return the data; a decode failure alone is downgraded to the
default structure. -/
def parse_analysis_response (response_text : List Char) : PyOutcome Json :=
  let json_str := selectJson response_text
  match jsonLoads json_str with
  | none => .ok (defaultResult response_text)
  | some data =>
    match checkFields requiredFields data with
    | some e => .raised e
    | none =>
      match logEval data with
      | some e => .raised e
      | none => .ok data

/-!
## Diagram Analysis Client (`analyze_architecture_diagram`)

The method performs a single synchronous `invoke_model` call; its body runs
inside `try ... except Exception as e: raise`, which re-raises every
exception.  The remote endpoint is modelled as an oracle giving the outcome
of the n-th call the method could make: either the analysis text the model
returned, or an exception from the transport.  The body consults the oracle
exactly once (index 0) — there is no retry loop in the source.
-/

/-- `analyze_architecture_diagram` (lines 28-97): one remote call, then
`_parse_analysis_response` on the returned text; all exceptions re-raised. -/
def analyze_architecture_diagram (oracle : Nat → PyOutcome (List Char)) :
    PyOutcome Json :=
  match oracle 0 with
  | .raised e => .raised e
  | .ok analysis_text => parse_analysis_response analysis_text

/-!
## Image Normalizer (`image_processor.py`) and PDF Rasterizer (`pdf_converter.py`)

A decoded PIL image is embedded as a mode tag, pixel dimensions, a channel
grid, and (for palette images) a palette.  The channel tuple is read
according to the mode: `RGB`/`RGBA` use components 1-3 as colour and 4 as
alpha, `LA` uses component 1 as luminance and 2 as alpha, `L` component 1 as
luminance, `P` component 1 as palette index.  Pixel compositing
(`Image.paste` with an 8-bit mask) uses Pillow's exact fixed-point blend
arithmetic.  Decoding bytes into an image and re-encoding as PNG are Pillow
internals outside this repository; an operation on raw bytes is therefore
embedded as a function of the decode outcome (`Except` error or decoded
image), and the produced PNG bytes are identified with the processed image
they encode.
-/

inductive PILMode where
  | RGB : PILMode
  | RGBA : PILMode
  | LA : PILMode
  | L : PILMode
  | P : PILMode
deriving DecidableEq

structure PILImage where
  mode : PILMode
  width : Nat
  height : Nat
  px : Nat → Nat → Nat × Nat × Nat × Nat
  palette : Nat → Nat × Nat × Nat × Nat

/-- Pillow's `MULDIV255(a, b)` fixed-point macro: `(a * b + 128)` followed by
the double shift that divides by 255 with correct rounding. -/
def muldiv255 (a b : Nat) : Nat :=
  ((a * b + 128) / 256 + (a * b + 128)) / 256

/-- Pillow's `BLEND(mask, in1, in2)`: composite channel `b` over channel `a`
under 8-bit mask `m`. -/
def blendChan (m a b : Nat) : Nat := muldiv255 a (255 - m) + muldiv255 b m

/-- `img.convert('RGBA')` on a palette image: each pixel is replaced by its
palette entry (the palette carries the transparency layer when present). -/
def convertPtoRGBA (img : PILImage) : PILImage :=
  { img with mode := PILMode.RGBA, px := fun x y => img.palette (img.px x y).1 }

/-- The colour of a pixel as pasted onto an RGB background: `RGBA` uses its
colour channels, `LA` replicates its luminance. -/
def srcColor (img : PILImage) (x y : Nat) : Nat × Nat × Nat :=
  match img.mode with
  | .LA => ((img.px x y).1, (img.px x y).1, (img.px x y).1)
  | _ => ((img.px x y).1, (img.px x y).2.1, (img.px x y).2.2.1)

/-- The last band (`img.split()[-1]`), used as the compositing mask: the
alpha channel of an `RGBA` or `LA` image. -/
def lastBand (img : PILImage) (x y : Nat) : Nat :=
  match img.mode with
  | .RGBA => (img.px x y).2.2.2
  | .LA => (img.px x y).2.1
  | _ => (img.px x y).1

/-- Lines 76-81: create an opaque white RGB canvas of the same size and
paste the image onto it with its alpha band as mask. -/
def pasteOnWhite (img : PILImage) : PILImage :=
  { mode := PILMode.RGB
    width := img.width
    height := img.height
    px := fun x y =>
      let m := lastBand img x y
      let c := srcColor img x y
      (blendChan m 255 c.1, blendChan m 255 c.2.1, blendChan m 255 c.2.2, 255)
    palette := fun _ => (0, 0, 0, 0) }

/-- `img.convert('RGB')` for the remaining non-RGB mode in the model
universe (`L`): replicate the luminance into three channels. -/
def convertToRGB (img : PILImage) : PILImage :=
  { img with
    mode := PILMode.RGB
    px := fun x y => ((img.px x y).1, (img.px x y).1, (img.px x y).1, 255) }

/-- Lines 74-83: the mode-coercion step shared by `process_image` and
`pdf_to_image` — alpha or palette modes are composited onto white (palette
images first expanded to RGBA), any other non-RGB mode converted to RGB. -/
def modeStep (img : PILImage) : PILImage :=
  if img.mode = .RGBA ∨ img.mode = .LA ∨ img.mode = .P then
    pasteOnWhite (if img.mode = .P then convertPtoRGBA img else img)
  else if img.mode ≠ .RGB then convertToRGB img
  else img

/-- Pillow's `round_aspect(number, key)` inside `Image.thumbnail`: of the
floor and the ceiling of `number`, keep the one with the smaller key (the
floor on ties, as Python `min` does), and never go below 1. -/
def roundAspect (q : ℚ) (key : ℤ → ℚ) : ℤ :=
  max (if key ⌊q⌋ ≤ key ⌈q⌉ then ⌊q⌋ else ⌈q⌉) 1

/-- The target-size computation of `Image.thumbnail((tx, ty))`: no resize
when the image already fits, otherwise scale the larger side to the cap and
round the other to best preserve the aspect ratio.  Pillow computes the
aspect in floating point; the model computes it as an exact rational. -/
def thumbnailSize (w h tx ty : Nat) : Nat × Nat :=
  if w ≤ tx ∧ h ≤ ty then (w, h)
  else
    let aspect : ℚ := (w : ℚ) / (h : ℚ)
    if aspect ≤ (tx : ℚ) / (ty : ℚ) then
      ((roundAspect ((ty : ℚ) * aspect) (fun n => |aspect - (n : ℚ) / (ty : ℚ)|)).toNat, ty)
    else
      (tx, (roundAspect ((tx : ℚ) / aspect)
        (fun n => if n = 0 then 0 else |aspect - (tx : ℚ) / (n : ℚ)|)).toNat)

/-- Resampling to the thumbnail size.  The geometry (new dimensions, mode
preservation) is exact; the LANCZOS filter's pixel arithmetic is floating
point inside Pillow and is abstracted by a coordinate-scaling pixel map —
no claim concerns resampled pixel values. -/
def resizeTo (img : PILImage) (w' h' : Nat) : PILImage :=
  { img with
    width := w'
    height := h'
    px := fun x y => img.px (x * img.width / w') (y * img.height / h') }

/-- The maximum analysis dimensions (`MAX_WIDTH`/`MAX_HEIGHT`). -/
def MAX_WIDTH : Nat := 1920
def MAX_HEIGHT : Nat := 1920

/-- Lines 85-89: downscale via `thumbnail` only when a dimension exceeds the
cap. -/
def thumbnailStep (img : PILImage) : PILImage :=
  if MAX_WIDTH < img.width ∨ MAX_HEIGHT < img.height then
    let s := thumbnailSize img.width img.height MAX_WIDTH MAX_HEIGHT
    resizeTo img s.1 s.2
  else img

/-- `process_image` on a successfully decoded image: mode coercion then
conditional downscale (the PNG re-encode preserves both). -/
def processDecoded (img : PILImage) : PILImage := thumbnailStep (modeStep img)

/-- `ImageProcessor.process_image` (lines 56-101): the `try` body decodes,
coerces, resizes and re-encodes; any exception — decode failure included —
is caught and returned as `(None, str(e))`. -/
def process_image (decoded : Except (List Char) PILImage) :
    Option PILImage × Option (List Char) :=
  match decoded with
  | .error e => (none, some e)
  | .ok img => (some (processDecoded img), none)

/-- `PDFConverter.pdf_to_image` (pdf_converter.py lines 55-109): render the
requested page (the `convert_from_bytes` outcome is the input), report an
empty render as the named error, otherwise apply the same mode coercion (the
PDF path performs no resizing) and re-encode; any exception is caught and
returned as `(None, str(e))`. -/
def pdf_to_image (render : Except (List Char) (List PILImage))
    (page_number : Nat) : Option PILImage × Option (List Char) :=
  match render with
  | .error e => (none, some e)
  | .ok [] => (none, some (cs "Could not convert PDF page " ++ cs (toString page_number)))
  | .ok (img :: _) => (some (modeStep img), none)

/-- `MAX_FILE_SIZE` (10 MB). -/
def MAX_FILE_SIZE : Nat := 10 * 1024 * 1024

/-- `SUPPORTED_FORMATS`; the source holds them in a Python set, listed here
in the source's literal order (only membership and the join into the error
message use it, and no claim depends on the join order). -/
def SUPPORTED_FORMATS : List (List Char) :=
  [cs "PNG", cs "JPEG", cs "JPG", cs "WEBP"]

/-- `ImageProcessor.validate_image` (lines 28-54): size ceiling first, then
the format reported by decoding the header (`Image.open(...).format`, given
here as the decode outcome — the filename plays no part).  Returns Python's
`(is_valid, error_message)` pair. -/
def validate_image (contentLen : Nat) (decodedFormat : Except (List Char) (List Char))
    (filename : List Char) : Bool × List Char :=
  if MAX_FILE_SIZE < contentLen then
    (false, cs "File size exceeds maximum of 10.0MB")
  else
    match decodedFormat with
    | .error e => (false, cs "Invalid image file: " ++ e)
    | .ok fmt =>
      if SUPPORTED_FORMATS.any (fun f => f == fmt) then (true, [])
      else
        (false, cs "Unsupported format: " ++ fmt ++
          cs ". Supported: PNG, JPEG, JPG, WEBP")

/-!
## Observers and test fixtures used by the theorems below
-/

/-- Read a field of a structured analysis result (a decoded JSON object). -/
def resultField (r : Json) (k : List Char) : Option Json :=
  match r with
  | .obj kvs => dictGet kvs k
  | _ => none

/-- Modelled from the spec: the `wrap_in_json_fence` test-harness helper of
§8 ("Round-trip"), absent from the source — a payload inside a
JSON-tagged markdown code fence. -/
def wrapInJsonFence (p : List Char) : List Char :=
  cs "```json\n" ++ p ++ cs "\n```"

/-- Modelled from the spec: the `wrap_in_generic_fence` test-harness helper
of §8 — a payload inside an untagged markdown code fence. -/
def wrapInGenericFence (p : List Char) : List Char :=
  cs "```\n" ++ p ++ cs "\n```"

/-- A syntactically valid JSON payload that carries all four required keys
but also a ``` fence marker inside one of its strings.  (String-typed
values keep the concrete evaluation free of rational arithmetic, which the
kernel does not reduce; the required keys are all present.) -/
def fencePayload : List Char :=
  cs "\x7b\"provider\":\"aws\",\"detected_components\":[],\"complexity\":\"low\",\"estimated_monthly_cost\":\"zero\",\"note\":\"```\"\x7d"

/-- A valid payload with the four required keys and no fence marker. -/
def goodPayload : List Char :=
  cs "\x7b\"provider\":\"aws\",\"detected_components\":[],\"complexity\":\"low\",\"estimated_monthly_cost\":\"120\"\x7d"

/-- A 2x2 RGBA image whose (0,0) pixel is fully transparent. -/
def imgRGBA : PILImage :=
  { mode := PILMode.RGBA
    width := 2
    height := 2
    px := fun x y => if x = 0 ∧ y = 0 then (10, 20, 30, 0) else (100, 110, 120, 255)
    palette := fun _ => (0, 0, 0, 0) }

/-- A 4000x3000 grayscale image (the spec's end-to-end scenario size). -/
def imgBig : PILImage :=
  { mode := PILMode.L
    width := 4000
    height := 3000
    px := fun _ _ => (7, 7, 7, 255)
    palette := fun _ => (0, 0, 0, 0) }

/-- An oracle whose remote endpoint fails on every call. -/
def failingOracle : Nat → PyOutcome (List Char) :=
  fun _ => .raised (.clientError (cs "Could not connect to the endpoint URL"))

/-!
## Search-loop characterisation lemmas
-/

/-- A match of a longer pattern is in particular a match of its initial
segment. -/
theorem startsWith_of_append (p q s : List Char)
    (h : startsWith (p ++ q) s = true) : startsWith p s = true := by
  induction p generalizing s with
  | nil => rfl
  | cons c ps ih =>
    cases s with
    | nil => simp [startsWith] at h
    | cons d t =>
      simp only [List.cons_append, startsWith, Bool.and_eq_true] at h ⊢
      exact ⟨h.1, ih t h.2⟩

/-- The search loop reports no occurrence exactly when no suffix matches. -/
theorem findAux_eq_none_iff (pat : List Char) :
    ∀ (s : List Char) (i : Nat),
      findAux pat s i = none ↔ ∀ j, startsWith pat (s.drop j) = false := by
  intro s
  induction s with
  | nil =>
    intro i
    rw [findAux]
    constructor
    · intro h j
      rcases hsw : startsWith pat [] with _ | _
      · simp [List.drop_nil, hsw]
      · rw [hsw] at h; simp at h
    · intro h
      have := h 0
      simp only [List.drop_nil] at this
      simp [this]
  | cons c t ih =>
    intro i
    rw [findAux]
    rcases hsw : startsWith pat (c :: t) with _ | _
    · simp only [Bool.false_eq_true, if_false]
      constructor
      · intro h j
        cases j with
        | zero => simpa using hsw
        | succ j' =>
          have := (ih (i + 1)).mp h j'
          simpa using this
      · intro h
        exact (ih (i + 1)).mpr (fun j => by simpa using h (j + 1))
    · simp only [if_true]
      constructor
      · intro h; cases h
      · intro h
        have := h 0
        simp only [List.drop_zero] at this
        rw [hsw] at this
        cases this

/-- The search loop finds the first matching index: if no index below `k`
matches and `k` matches, the result is `i + k`. -/
theorem findAux_eq_some (pat : List Char) :
    ∀ (s : List Char) (i k : Nat),
      (∀ j, j < k → startsWith pat (s.drop j) = false) →
      startsWith pat (s.drop k) = true →
      findAux pat s i = some (i + k) := by
  intro s
  induction s with
  | nil =>
    intro i k h1 h2
    cases k with
    | zero => rw [findAux]; simp only [List.drop_nil] at h2; simp [h2]
    | succ k' =>
      have := h1 0 (Nat.succ_pos k')
      simp only [List.drop_nil] at this h2
      rw [this] at h2; cases h2
  | cons c t ih =>
    intro i k h1 h2
    cases k with
    | zero =>
      simp only [List.drop_zero] at h2
      rw [findAux, h2]; simp
    | succ k' =>
      have h0 := h1 0 (Nat.succ_pos k')
      simp only [List.drop_zero] at h0
      rw [findAux, h0]
      simp only [Bool.false_eq_true, if_false]
      have := ih (i + 1) k' (fun j hj => by
        have := h1 (j + 1) (Nat.succ_lt_succ hj)
        simpa using this) (by simpa using h2)
      rw [this]
      congr 1
      omega

/-- If the short fence marker does not occur, the json-tagged one does not
either. -/
theorem pyContains_json_of_triple (s : List Char)
    (h : pyContains s (cs "```") = false) :
    pyContains s (cs "```json") = false := by
  have hn : findAux (cs "```") s 0 = none := by
    cases hf : findAux (cs "```") s 0 with
    | none => rfl
    | some v => rw [pyContains, hf] at h; cases h
  have hall := (findAux_eq_none_iff (cs "```") s 0).mp hn
  have hx : findAux (cs "```json") s 0 = none := by
    apply (findAux_eq_none_iff (cs "```json") s 0).mpr
    intro j
    rcases hsw : startsWith (cs "```json") (s.drop j) with _ | _
    · rfl
    · have hsw3 : startsWith (cs "```") (s.drop j) = true :=
        startsWith_of_append (cs "```") (cs "json") (s.drop j) hsw
      rw [hall j] at hsw3; cases hsw3
  rw [pyContains, hx]; rfl

/-- Without any fence marker the third selection branch takes the whole
stripped text. -/
theorem selectJson_no_fence (s : List Char)
    (h : pyContains s (cs "```") = false) : selectJson s = pyStrip s := by
  rw [selectJson, pyContains_json_of_triple s h, h]
  simp

/-- The validation loop over an object fails on the first required field not
present among the keys. -/
theorem checkFields_obj (kvs : List (List Char × Json)) :
    ∀ fs : List (List Char),
      checkFields fs (Json.obj kvs) =
        match fs.find? (fun k => !(kvs.any (fun kv => kv.1 == k))) with
        | some f => some (.valueError (cs "Missing required field: " ++ f))
        | none => none := by
  intro fs
  induction fs with
  | nil => rfl
  | cons f fs' ih =>
    rw [checkFields, List.find?]
    rcases hf : kvs.any (fun kv => kv.1 == f) with _ | _
    · simp only [pyInB, hf, Bool.not_false]
    · simp only [pyInB, hf, Bool.not_true, ih]

/-- C2: for every input string with no fence marker (so the whole trimmed
text is selected) that fails to parse as JSON, `_parse_analysis_response`
returns the default failure structure: `error` set, `detected_components`
empty, `complexity` "medium", `estimated_monthly_cost` 0, and the first 500
characters of the raw input preserved in `raw_response`. -/
theorem extract_unparseable_returns_default (s : List Char)
    (hnf : pyContains s (cs "```") = false)
    (hbad : jsonLoads (pyStrip s) = none) :
    parse_analysis_response s = PyOutcome.ok (defaultResult s) ∧
    resultField (defaultResult s) (cs "error") =
      some (.str (cs "Failed to parse AI response")) ∧
    resultField (defaultResult s) (cs "detected_components") = some (.arr []) ∧
    resultField (defaultResult s) (cs "complexity") = some (.str (cs "medium")) ∧
    resultField (defaultResult s) (cs "estimated_monthly_cost") = some (.num 0) ∧
    resultField (defaultResult s) (cs "raw_response") = some (.str (s.take 500)) := by
  refine ⟨?_, rfl, rfl, rfl, rfl, rfl⟩
  rw [parse_analysis_response, selectJson_no_fence s hnf, hbad]

/-- Witness for C2 at the spec's example input `"not json at all"`. -/
theorem extract_unparseable_returns_default_witness :
    parse_analysis_response (cs "not json at all") =
      PyOutcome.ok (defaultResult (cs "not json at all")) :=
  (extract_unparseable_returns_default (cs "not json at all") rfl rfl).1

/-- C1 (amended): when the selected substring parses as a JSON object that
lacks one of the four required keys, `_parse_analysis_response` does not
return the failure default — it raises `ValueError("Missing required field:
<key>")`, which propagates because only `json.JSONDecodeError` is caught. -/
theorem extract_missing_field_raises (s : List Char)
    (kvs : List (List Char × Json)) (f : List Char)
    (h1 : jsonLoads (selectJson s) = some (Json.obj kvs))
    (h2 : requiredFields.find? (fun k => !(kvs.any (fun kv => kv.1 == k))) = some f) :
    parse_analysis_response s =
      PyOutcome.raised (.valueError (cs "Missing required field: " ++ f)) := by
  rw [parse_analysis_response, h1]
  simp only [checkFields_obj kvs requiredFields, h2]

/-- Witness for the amended C1 at the spec's own example input. -/
theorem extract_missing_field_raises_witness :
    parse_analysis_response (cs "\x7b\"provider\":\"aws\",\"complexity\":\"low\"\x7d") =
      PyOutcome.raised (.valueError (cs "Missing required field: detected_components")) :=
  extract_missing_field_raises
    (cs "\x7b\"provider\":\"aws\",\"complexity\":\"low\"\x7d")
    [(cs "provider", .str (cs "aws")), (cs "complexity", .str (cs "low"))]
    (cs "detected_components") rfl rfl

/-- Counterexample to C1 as stated: on the spec's example input — valid JSON
missing `detected_components` and `estimated_monthly_cost` — extract raises
instead of returning the failure-shaped default. -/
theorem extract_never_raises_counterexample :
    parse_analysis_response (cs "\x7b\"provider\":\"aws\",\"complexity\":\"low\"\x7d") =
      PyOutcome.raised (.valueError (cs "Missing required field: detected_components")) ∧
    parse_analysis_response (cs "\x7b\"provider\":\"aws\",\"complexity\":\"low\"\x7d") ≠
      PyOutcome.ok (defaultResult (cs "\x7b\"provider\":\"aws\",\"complexity\":\"low\"\x7d")) := by
  constructor
  · rfl
  · intro h
    rw [show parse_analysis_response (cs "\x7b\"provider\":\"aws\",\"complexity\":\"low\"\x7d") =
      PyOutcome.raised (.valueError (cs "Missing required field: detected_components")) from rfl] at h
    cases h

/-- C9: `analyze_architecture_diagram` makes a single remote call; a
transport failure on that call propagates unchanged to the caller (the
`except` block re-raises), and the outcome depends only on call 0 of the
oracle — there is no internal retry. -/
theorem analyze_propagates_transport_failure
    (oracle oracle' : Nat → PyOutcome (List Char)) (e : PyExn) :
    (oracle 0 = PyOutcome.raised e →
      analyze_architecture_diagram oracle = PyOutcome.raised e) ∧
    (oracle 0 = oracle' 0 →
      analyze_architecture_diagram oracle = analyze_architecture_diagram oracle') := by
  constructor
  · intro h
    rw [analyze_architecture_diagram, h]
  · intro h
    rw [analyze_architecture_diagram, h, analyze_architecture_diagram]

/-- Witness for C9: a failing endpoint's error surfaces as-is. -/
theorem analyze_propagates_transport_failure_witness :
    analyze_architecture_diagram failingOracle =
      PyOutcome.raised (.clientError (cs "Could not connect to the endpoint URL")) :=
  (analyze_propagates_transport_failure failingOracle failingOracle
    (.clientError (cs "Could not connect to the endpoint URL"))).1 rfl

/-- C6: neither `process_image` nor `pdf_to_image` lets an exception escape:
a decode/render failure comes back as `(None, error-string)`, an empty
render result is reported as the named "Could not convert PDF page N" error,
and every outcome populates one side of the pair. -/
theorem image_ops_never_raise (decoded : Except (List Char) PILImage)
    (render : Except (List Char) (List PILImage)) (page : Nat) :
    (∀ e, decoded = .error e → process_image decoded = (none, some e)) ∧
    (∀ e, render = .error e → pdf_to_image render page = (none, some e)) ∧
    (render = .ok [] →
      pdf_to_image render page =
        (none, some (cs "Could not convert PDF page " ++ cs (toString page)))) ∧
    ((process_image decoded).1.isSome ∨ (process_image decoded).2.isSome) ∧
    ((pdf_to_image render page).1.isSome ∨ (pdf_to_image render page).2.isSome) := by
  refine ⟨?_, ?_, ?_, ?_, ?_⟩
  · intro e he; rw [he]; rfl
  · intro e he; rw [he]; rfl
  · intro he; rw [he]; rfl
  · cases decoded with
    | error e => right; rfl
    | ok img => left; rfl
  · cases render with
    | error e => right; rfl
    | ok imgs => cases imgs with
      | nil => right; rfl
      | cons i rest => left; rfl

/-- Witness for C6: a failed decode and an empty render at page 3. -/
theorem image_ops_never_raise_witness :
    process_image (.error (cs "cannot identify image file")) =
      (none, some (cs "cannot identify image file")) ∧
    pdf_to_image (.ok []) 3 =
      (none, some (cs "Could not convert PDF page 3")) := by
  constructor
  · exact (image_ops_never_raise (.error (cs "cannot identify image file"))
      (.ok []) 3).1 (cs "cannot identify image file") rfl
  · exact (image_ops_never_raise (.error (cs "cannot identify image file"))
      (.ok []) 3).2.2.1 rfl

/-- C7: `validate_image` accepts exactly the inputs within the 10MB ceiling
whose decoded header format is on the allow-list, with an empty reason;
oversized, undecodable, or off-list inputs are rejected with a non-empty
reason; and the verdict never depends on the filename. -/
theorem validate_image_spec (n : Nat) (decodedFormat : Except (List Char) (List Char))
    (f1 f2 : List Char) :
    (∀ fmt, n ≤ MAX_FILE_SIZE → decodedFormat = .ok fmt →
      (fmt = cs "PNG" ∨ fmt = cs "JPEG" ∨ fmt = cs "WEBP") →
      validate_image n decodedFormat f1 = (true, [])) ∧
    (MAX_FILE_SIZE < n →
      (validate_image n decodedFormat f1).1 = false ∧
      (validate_image n decodedFormat f1).2 ≠ []) ∧
    (∀ e, n ≤ MAX_FILE_SIZE → decodedFormat = .error e →
      (validate_image n decodedFormat f1).1 = false ∧
      (validate_image n decodedFormat f1).2 ≠ []) ∧
    (∀ fmt, n ≤ MAX_FILE_SIZE → decodedFormat = .ok fmt →
      SUPPORTED_FORMATS.any (fun f => f == fmt) = false →
      (validate_image n decodedFormat f1).1 = false ∧
      (validate_image n decodedFormat f1).2 ≠ []) ∧
    validate_image n decodedFormat f1 = validate_image n decodedFormat f2 := by
  refine ⟨?_, ?_, ?_, ?_, ?_⟩
  · intro fmt hn hd hfmt
    rw [validate_image.eq_def, if_neg (by omega), hd]
    rcases hfmt with h | h | h <;> rw [h] <;> rfl
  · intro hn
    rw [validate_image.eq_def, if_pos hn]
    exact ⟨rfl, by simp [cs]⟩
  · intro e hn hd
    rw [validate_image.eq_def, if_neg (by omega), hd]
    exact ⟨rfl, by simp [cs]⟩
  · intro fmt hn hd hoff
    rw [validate_image.eq_def, if_neg (by omega), hd]
    simp only [hoff, Bool.false_eq_true, if_false]
    exact ⟨by simp, by simp [cs]⟩
  · rw [validate_image.eq_def, validate_image.eq_def]

/-- Witness for C7: a small PNG passes; an oversized input and an
unsupported GIF fail with non-empty reasons. -/
theorem validate_image_spec_witness :
    validate_image 1024 (.ok (cs "PNG")) (cs "diagram.png") = (true, []) ∧
    (validate_image (MAX_FILE_SIZE + 1) (.ok (cs "PNG")) (cs "diagram.png")).1 = false ∧
    (validate_image 1024 (.ok (cs "GIF")) (cs "diagram.png")).1 = false := by
  refine ⟨?_, ?_, ?_⟩
  · exact (validate_image_spec 1024 (.ok (cs "PNG")) (cs "diagram.png")
      (cs "x")).1 (cs "PNG") (by norm_num [MAX_FILE_SIZE]) rfl (Or.inl rfl)
  · exact ((validate_image_spec (MAX_FILE_SIZE + 1) (.ok (cs "PNG")) (cs "diagram.png")
      (cs "x")).2.1 (by omega)).1
  · exact ((validate_image_spec 1024 (.ok (cs "GIF")) (cs "diagram.png")
      (cs "x")).2.2.2.1 (cs "GIF") (by norm_num [MAX_FILE_SIZE]) rfl rfl).1

/-!
## Image pipeline lemmas
-/

/-- The mode-coercion step always yields a 3-channel RGB image. -/
theorem modeStep_mode (img : PILImage) : (modeStep img).mode = PILMode.RGB := by
  rw [modeStep]
  rcases h : img.mode with _ | _ | _ | _ | _ <;> simp [h, pasteOnWhite, convertToRGB]

/-- The mode-coercion step never changes the pixel dimensions. -/
theorem modeStep_dims (img : PILImage) :
    (modeStep img).width = img.width ∧ (modeStep img).height = img.height := by
  rw [modeStep]
  rcases h : img.mode with _ | _ | _ | _ | _ <;>
    simp [h, pasteOnWhite, convertToRGB, convertPtoRGBA]

/-- The resize step never changes the mode. -/
theorem thumbnailStep_mode (img : PILImage) :
    (thumbnailStep img).mode = img.mode := by
  rw [thumbnailStep]
  split
  · rfl
  · rfl

/-- Compositing a fully transparent source channel over white gives white:
Pillow's fixed-point blend with mask 0 returns the background channel. -/
theorem blendChan_mask_zero (c : Nat) : blendChan 0 255 c = 255 := by
  simp [blendChan, muldiv255]

/-- C4: for every image with an alpha channel or palette mode the normalized
output is 3-channel RGB with no alpha; the compositing step pastes onto an
opaque white canvas of identical dimensions using the (palette-expanded)
alpha band as mask, so every fully transparent pixel renders as white; and
every successful normalize output is 3-channel RGB. -/
theorem normalize_composites_alpha_onto_white (img : PILImage)
    (h : img.mode = PILMode.RGBA ∨ img.mode = PILMode.LA ∨ img.mode = PILMode.P) :
    (processDecoded img).mode = PILMode.RGB ∧
    (modeStep img).width = img.width ∧
    (modeStep img).height = img.height ∧
    (∀ x y,
      lastBand (if img.mode = PILMode.P then convertPtoRGBA img else img) x y = 0 →
      (modeStep img).px x y = (255, 255, 255, 255)) ∧
    (∀ j : PILImage, (processDecoded j).mode = PILMode.RGB) := by
  refine ⟨?_, (modeStep_dims img).1, (modeStep_dims img).2, ?_, ?_⟩
  · rw [processDecoded, thumbnailStep_mode, modeStep_mode]
  · intro x y halpha
    rw [modeStep, if_pos h]
    simp only [pasteOnWhite, halpha, blendChan_mask_zero]
  · intro j
    rw [processDecoded, thumbnailStep_mode, modeStep_mode]

/-- Witness for C4 on a concrete 2x2 RGBA image with a transparent corner
pixel. -/
theorem normalize_composites_alpha_onto_white_witness :
    (processDecoded imgRGBA).mode = PILMode.RGB ∧
    (modeStep imgRGBA).width = 2 ∧
    (modeStep imgRGBA).px 0 0 = (255, 255, 255, 255) := by
  obtain ⟨h1, h2, -, h4, -⟩ :=
    normalize_composites_alpha_onto_white imgRGBA (Or.inl rfl)
  exact ⟨h1, h2, h4 0 0 rfl⟩

/-- `round_aspect` never returns less than 1. -/
theorem roundAspect_ge_one (q : ℚ) (key : ℤ → ℚ) : 1 ≤ roundAspect q key :=
  le_max_right _ _

/-- `round_aspect` of a value at most `n` stays at most `n` (for `n ≥ 1`). -/
theorem roundAspect_le (q : ℚ) (key : ℤ → ℚ) (n : ℤ)
    (h1 : q ≤ (n : ℚ)) (h2 : 1 ≤ n) : roundAspect q key ≤ n := by
  rw [roundAspect]
  apply max_le _ h2
  have hceil : ⌈q⌉ ≤ n := Int.ceil_le.mpr h1
  split
  · exact le_trans (Int.floor_le_ceil q) hceil
  · exact hceil

/-- `round_aspect` lands within one unit of its positive argument. -/
theorem roundAspect_close (q : ℚ) (hq : 0 < q) (key : ℤ → ℚ) :
    |((roundAspect q key : ℤ) : ℚ) - q| < 1 := by
  rw [roundAspect]
  have hfl : (⌊q⌋ : ℚ) ≤ q := Int.floor_le q
  have hfl1 : q < (⌊q⌋ : ℚ) + 1 := Int.lt_floor_add_one q
  have hcl : q ≤ (⌈q⌉ : ℚ) := Int.le_ceil q
  have hcl1 : (⌈q⌉ : ℚ) < q + 1 := Int.ceil_lt_add_one q
  have hceil_pos : 1 ≤ ⌈q⌉ := Int.ceil_pos.mpr hq
  split
  · rcases le_or_lt 1 ⌊q⌋ with hge | hlt
    · rw [max_eq_left hge]
      rw [abs_sub_lt_iff]
      constructor
      · linarith
      · linarith
    · rw [max_eq_right (by omega : ⌊q⌋ ≤ (1 : ℤ))]
      have h0 : (⌊q⌋ : ℚ) ≤ 0 := by exact_mod_cast (by omega : ⌊q⌋ ≤ (0 : ℤ))
      rw [abs_sub_lt_iff]
      constructor <;> push_cast <;> linarith
  · rw [max_eq_left hceil_pos]
    rw [abs_sub_lt_iff]
    constructor
    · linarith
    · linarith

/-- The thumbnail target size never exceeds the 1920x1920 cap when a resize
is actually triggered. -/
theorem thumbnailSize_le (w h : Nat) (hover : ¬(w ≤ MAX_WIDTH ∧ h ≤ MAX_HEIGHT)) :
    (thumbnailSize w h MAX_WIDTH MAX_HEIGHT).1 ≤ 1920 ∧
    (thumbnailSize w h MAX_WIDTH MAX_HEIGHT).2 ≤ 1920 := by
  rw [thumbnailSize, if_neg hover]
  have haspect0 : (0 : ℚ) ≤ (w : ℚ) / (h : ℚ) :=
    div_nonneg (Nat.cast_nonneg w) (Nat.cast_nonneg h)
  dsimp only
  split
  · rename_i hcase
    rw [MAX_WIDTH, MAX_HEIGHT] at hcase
    have h1 : (w : ℚ) / (h : ℚ) ≤ 1 := by
      have : ((1920 : Nat) : ℚ) / ((1920 : Nat) : ℚ) = 1 := by norm_num
      rw [this] at hcase
      exact hcase
    constructor
    · have hq : ((MAX_HEIGHT : Nat) : ℚ) * ((w : ℚ) / (h : ℚ)) ≤ ((1920 : ℤ) : ℚ) := by
        rw [MAX_HEIGHT]
        push_cast
        nlinarith
      have := roundAspect_le _ (fun n => |(w : ℚ) / (h : ℚ) - (n : ℚ) / ((MAX_HEIGHT : Nat) : ℚ)|)
        1920 hq (by norm_num)
      simpa using Int.toNat_le.mpr this
    · rw [MAX_HEIGHT]
  · rename_i hcase
    rw [MAX_WIDTH, MAX_HEIGHT] at hcase
    have h1 : 1 < (w : ℚ) / (h : ℚ) := by
      have heq : ((1920 : Nat) : ℚ) / ((1920 : Nat) : ℚ) = 1 := by norm_num
      rw [heq] at hcase
      exact lt_of_not_ge hcase
    constructor
    · rw [MAX_WIDTH]
    · have hq : ((MAX_WIDTH : Nat) : ℚ) / ((w : ℚ) / (h : ℚ)) ≤ ((1920 : ℤ) : ℚ) := by
        rw [MAX_WIDTH]
        push_cast
        rw [div_le_iff (by linarith)]
        nlinarith
      have := roundAspect_le _
        (fun n => if n = 0 then 0 else |(w : ℚ) / (h : ℚ) - ((MAX_WIDTH : Nat) : ℚ) / (n : ℚ)|)
        1920 hq (by norm_num)
      simpa using Int.toNat_le.mpr this

/-- After normalization the dimensions respect the cap. -/
theorem processDecoded_dims_le (img : PILImage) :
    (processDecoded img).width ≤ 1920 ∧ (processDecoded img).height ≤ 1920 := by
  rw [processDecoded, thumbnailStep]
  split
  · rename_i hover
    have hno : ¬((modeStep img).width ≤ MAX_WIDTH ∧ (modeStep img).height ≤ MAX_HEIGHT) := by
      rw [MAX_WIDTH, MAX_HEIGHT] at hover ⊢
      omega
    have := thumbnailSize_le (modeStep img).width (modeStep img).height hno
    exact ⟨this.1, this.2⟩
  · rename_i hin
    rw [MAX_WIDTH, MAX_HEIGHT] at hin
    constructor <;> omega

/-- C8: normalize is idempotent on its own output — re-running the pipeline
on an already-normalized image changes nothing (same PNG: same pixels, same
dimensions, same RGB mode). -/
theorem normalize_idempotent (img : PILImage) :
    processDecoded (processDecoded img) = processDecoded img := by
  have hmode : (processDecoded img).mode = PILMode.RGB := by
    rw [processDecoded, thumbnailStep_mode, modeStep_mode]
  have hdims := processDecoded_dims_le img
  conv_lhs => rw [processDecoded]
  have h1 : modeStep (processDecoded img) = processDecoded img := by
    rw [modeStep, hmode]
    simp
  rw [h1, thumbnailStep, if_neg (by rw [MAX_WIDTH, MAX_HEIGHT]; omega)]

/-- When a dimension is over the cap, the normalized dimensions are exactly
the thumbnail target size. -/
theorem processDecoded_dims_of_over (img : PILImage)
    (hover : MAX_WIDTH < img.width ∨ MAX_HEIGHT < img.height) :
    (processDecoded img).width =
      (thumbnailSize img.width img.height MAX_WIDTH MAX_HEIGHT).1 ∧
    (processDecoded img).height =
      (thumbnailSize img.width img.height MAX_WIDTH MAX_HEIGHT).2 := by
  rw [processDecoded, thumbnailStep, (modeStep_dims img).1, (modeStep_dims img).2,
    if_pos hover]
  exact ⟨rfl, rfl⟩

/-- When both dimensions are within the cap, normalization leaves them
unchanged. -/
theorem processDecoded_dims_of_within (img : PILImage)
    (hin : img.width ≤ MAX_WIDTH ∧ img.height ≤ MAX_HEIGHT) :
    (processDecoded img).width = img.width ∧
    (processDecoded img).height = img.height := by
  rw [processDecoded, thumbnailStep, (modeStep_dims img).1, (modeStep_dims img).2,
    if_neg (by omega)]
  exact modeStep_dims img


/-- Casting the clipped thumbnail side through `toNat` is harmless: the
value is at least 1. -/
theorem roundAspect_toNat_cast (q : ℚ) (key : ℤ → ℚ) :
    (((roundAspect q key).toNat : ℕ) : ℚ) = ((roundAspect q key : ℤ) : ℚ) := by
  have h1 : (0 : ℤ) ≤ roundAspect q key := by
    have := roundAspect_ge_one q key
    omega
  exact_mod_cast Int.toNat_of_nonneg h1

/-- Thumbnail target for a portrait (or square) image over the cap: height
pinned to 1920, width within one pixel of the exact aspect scaling. -/
theorem thumbnailSize_portrait (w h : Nat) (hw : 1 ≤ w) (hh : 1 ≤ h)
    (hover : ¬(w ≤ MAX_WIDTH ∧ h ≤ MAX_HEIGHT)) (hle : w ≤ h) :
    (thumbnailSize w h MAX_WIDTH MAX_HEIGHT).2 = 1920 ∧
    |((thumbnailSize w h MAX_WIDTH MAX_HEIGHT).1 : ℚ) - (1920 * w : ℚ) / (h : ℚ)| < 1 := by
  have hwpos : (0 : ℚ) < (w : ℚ) := by exact_mod_cast hw
  have hhpos : (0 : ℚ) < (h : ℚ) := by exact_mod_cast hh
  rw [thumbnailSize, if_neg hover]
  dsimp only
  have hcond : (w : ℚ) / (h : ℚ) ≤ ((MAX_WIDTH : Nat) : ℚ) / ((MAX_HEIGHT : Nat) : ℚ) := by
    rw [MAX_WIDTH, MAX_HEIGHT]
    have h1 : (w : ℚ) / (h : ℚ) ≤ 1 := (div_le_one hhpos).mpr (by exact_mod_cast hle)
    have h2 : ((1920 : Nat) : ℚ) / ((1920 : Nat) : ℚ) = 1 := by norm_num
    rw [h2]
    exact h1
  rw [if_pos hcond]
  refine ⟨rfl, ?_⟩
  have hq : (0 : ℚ) < ((MAX_HEIGHT : Nat) : ℚ) * ((w : ℚ) / (h : ℚ)) := by
    rw [MAX_HEIGHT]
    have : (0 : ℚ) < (w : ℚ) / (h : ℚ) := div_pos hwpos hhpos
    push_cast
    linarith
  have hqeq : ((MAX_HEIGHT : Nat) : ℚ) * ((w : ℚ) / (h : ℚ)) = (1920 * w : ℚ) / (h : ℚ) := by
    rw [MAX_HEIGHT]
    push_cast
    ring
  rw [roundAspect_toNat_cast, ← hqeq]
  exact roundAspect_close _ hq _

/-- Thumbnail target for a landscape image over the cap: width pinned to
1920, height within one pixel of the exact aspect scaling. -/
theorem thumbnailSize_landscape (w h : Nat) (hw : 1 ≤ w) (hh : 1 ≤ h)
    (hover : ¬(w ≤ MAX_WIDTH ∧ h ≤ MAX_HEIGHT)) (hlt : h < w) :
    (thumbnailSize w h MAX_WIDTH MAX_HEIGHT).1 = 1920 ∧
    |((thumbnailSize w h MAX_WIDTH MAX_HEIGHT).2 : ℚ) - (1920 * h : ℚ) / (w : ℚ)| < 1 := by
  have hwpos : (0 : ℚ) < (w : ℚ) := by exact_mod_cast hw
  have hhpos : (0 : ℚ) < (h : ℚ) := by exact_mod_cast hh
  rw [thumbnailSize, if_neg hover]
  dsimp only
  have hgt : (1 : ℚ) < (w : ℚ) / (h : ℚ) := (one_lt_div hhpos).mpr (by exact_mod_cast hlt)
  have hcond : ¬((w : ℚ) / (h : ℚ) ≤ ((MAX_WIDTH : Nat) : ℚ) / ((MAX_HEIGHT : Nat) : ℚ)) := by
    rw [MAX_WIDTH, MAX_HEIGHT]
    have h2 : ((1920 : Nat) : ℚ) / ((1920 : Nat) : ℚ) = 1 := by norm_num
    rw [h2]
    linarith
  rw [if_neg hcond]
  refine ⟨rfl, ?_⟩
  have haspect : (0 : ℚ) < (w : ℚ) / (h : ℚ) := by linarith
  have hq : (0 : ℚ) < ((MAX_WIDTH : Nat) : ℚ) / ((w : ℚ) / (h : ℚ)) := by
    rw [MAX_WIDTH]
    apply div_pos _ haspect
    push_cast
    norm_num
  have hqeq : ((MAX_WIDTH : Nat) : ℚ) / ((w : ℚ) / (h : ℚ)) = (1920 * h : ℚ) / (w : ℚ) := by
    rw [MAX_WIDTH, div_div_eq_mul_div]
    push_cast
    ring
  rw [roundAspect_toNat_cast, ← hqeq]
  exact roundAspect_close _ hq _

/-- C5: an image wider or taller than 1920px is downscaled so that both
dimensions are at most 1920 while the aspect ratio is preserved to within
one pixel of integer rounding (the larger side is pinned to 1920); an image
already within the cap keeps its exact dimensions — it is never upscaled. -/
theorem normalize_resize_spec (img : PILImage)
    (hw : 1 ≤ img.width) (hh : 1 ≤ img.height) :
    (MAX_WIDTH < img.width ∨ MAX_HEIGHT < img.height →
      (processDecoded img).width ≤ 1920 ∧
      (processDecoded img).height ≤ 1920 ∧
      (img.width ≤ img.height →
        (processDecoded img).height = 1920 ∧
        |((processDecoded img).width : ℚ) -
          (1920 * img.width : ℚ) / (img.height : ℚ)| < 1) ∧
      (img.height < img.width →
        (processDecoded img).width = 1920 ∧
        |((processDecoded img).height : ℚ) -
          (1920 * img.height : ℚ) / (img.width : ℚ)| < 1)) ∧
    (img.width ≤ MAX_WIDTH ∧ img.height ≤ MAX_HEIGHT →
      (processDecoded img).width = img.width ∧
      (processDecoded img).height = img.height) := by
  refine ⟨?_, processDecoded_dims_of_within img⟩
  intro hover
  obtain ⟨hwEq, hhEq⟩ := processDecoded_dims_of_over img hover
  have hno : ¬(img.width ≤ MAX_WIDTH ∧ img.height ≤ MAX_HEIGHT) := by
    rw [MAX_WIDTH, MAX_HEIGHT] at hover ⊢
    omega
  have hbounds := thumbnailSize_le img.width img.height hno
  refine ⟨by rw [hwEq]; exact hbounds.1, by rw [hhEq]; exact hbounds.2, ?_, ?_⟩
  · intro hle
    have := thumbnailSize_portrait img.width img.height hw hh hno hle
    rw [hwEq, hhEq]
    exact ⟨this.1, this.2⟩
  · intro hlt
    have := thumbnailSize_landscape img.width img.height hw hh hno hlt
    rw [hwEq, hhEq]
    exact ⟨this.1, this.2⟩

/-- Witness for C5 on a 4000x3000 image: downscaled to exactly 1920 wide,
height within a pixel of 1440, and never above the cap. -/
theorem normalize_resize_spec_witness :
    (processDecoded imgBig).width = 1920 ∧
    (processDecoded imgBig).height ≤ 1920 ∧
    |((processDecoded imgBig).height : ℚ) - (1920 * 3000 : ℚ) / (4000 : ℚ)| < 1 := by
  have h := normalize_resize_spec imgBig (by norm_num [imgBig]) (by norm_num [imgBig])
  have hover : MAX_WIDTH < imgBig.width ∨ MAX_HEIGHT < imgBig.height := by
    left
    norm_num [imgBig, MAX_WIDTH]
  obtain ⟨hb1, hb2, -, hcase⟩ := h.1 hover
  have hlt : imgBig.height < imgBig.width := by norm_num [imgBig]
  obtain ⟨hwid, hclose⟩ := hcase hlt
  refine ⟨hwid, hb2, ?_⟩
  have h3000 : (imgBig.height : ℚ) = 3000 := by norm_num [imgBig]
  have h4000 : (imgBig.width : ℚ) = 4000 := by norm_num [imgBig]
  rw [h3000, h4000] at hclose
  exact hclose

/-!
## Fence-selection analysis for symbolic payloads

The C3/C10 claims quantify over arbitrary payloads, so the `find` results on
fence-wrapped strings are computed symbolically: a pattern match cannot start
inside a fence-free payload, cannot straddle the payload boundary (the next
character is a newline, not a backtick), and must therefore hit the closing
fence first.
-/

/-- A pattern matches itself extended by anything. -/
theorem startsWith_self_append (p r : List Char) : startsWith p (p ++ r) = true := by
  induction p with
  | nil => rfl
  | cons c ps ih => simp [startsWith, ih]

/-- A match needs at least the pattern's length of input. -/
theorem startsWith_false_of_short (pat s : List Char)
    (h : s.length < pat.length) : startsWith pat s = false := by
  induction pat generalizing s with
  | nil => simp at h
  | cons c ps ih =>
    cases s with
    | nil => rfl
    | cons d t =>
      simp only [List.length_cons, Nat.add_lt_add_iff_right] at h
      simp [startsWith, ih t h]

/-- A match of a pattern no longer than the left part ignores the right
part. -/
theorem startsWith_append_of_le (pat d x : List Char)
    (h : pat.length ≤ d.length) : startsWith pat (d ++ x) = startsWith pat d := by
  induction pat generalizing d with
  | nil => rfl
  | cons c ps ih =>
    cases d with
    | nil => simp at h
    | cons a dt =>
      simp only [List.length_cons, Nat.add_le_add_iff_right] at h
      simp [startsWith, ih dt h]

/-- The straddle lemma: inside `payload ++ '\n' :: t` no fence marker can
start within the payload region when the payload itself is fence-free — a
match would either lie wholly inside the payload or need a backtick where
the newline sits. -/
theorem no_fence_in_payload_region (p t : List Char)
    (hp : ∀ i, startsWith (cs "```") (List.drop i p) = false)
    (j : Nat) (hj : j ≤ p.length) :
    startsWith (cs "```") (List.drop j (p ++ '\n' :: t)) = false := by
  have htb : cs "```" = ['`', '`', '`'] := rfl
  have hne : ('`' == '\n') = false := rfl
  rw [List.drop_append_of_le_length hj]
  rcases hd : List.drop j p with _ | ⟨a, _ | ⟨b, _ | ⟨c, rest⟩⟩⟩
  · simp [htb, startsWith, hne]
  · simp [htb, startsWith, hne]
  · simp [htb, startsWith, hne]
  · rw [startsWith_append_of_le _ _ _ (by rw [htb]; simp), ← hd]
    exact hp j

/-- Stripping ignores a leading whitespace character. -/
theorem pyStrip_cons_ws (c : Char) (l : List Char) (hc : pyWs c = true) :
    pyStrip (c :: l) = pyStrip l := by
  rw [pyStrip, pyStrip, List.dropWhile_cons, hc]
  simp

/-- Stripping ignores a trailing whitespace character. -/
theorem pyStrip_concat_ws (l : List Char) (c : Char) (hc : pyWs c = true) :
    pyStrip (l ++ [c]) = pyStrip l := by
  rw [pyStrip, pyStrip, List.dropWhile_append]
  rcases hdw : List.dropWhile pyWs l with _ | ⟨d, t⟩
  · simp only [List.isEmpty_nil, if_true]
    rw [List.dropWhile_cons, hc]
    simp
  · simp only [List.isEmpty_cons, Bool.false_eq_true, if_false]
    have h1 : (d :: t ++ [c]).reverse = c :: (t.reverse ++ [d]) := by simp
    have h2 : (d :: t).reverse = t.reverse ++ [d] := by simp
    rw [h1, h2, List.dropWhile_cons, hc]
    simp

/-- Stripping the slice the fence branches select recovers the stripped
payload: the selected text is the payload surrounded by the two fence
newlines. -/
theorem pyStrip_fence_body (p : List Char) :
    pyStrip ('\n' :: (p ++ ['\n'])) = pyStrip p := by
  rw [pyStrip_cons_ws '\n' _ rfl, pyStrip_concat_ws p '\n' rfl]

/-- `pyContains` failure unpacks to the pointwise no-match condition. -/
theorem no_match_of_not_contains (s : List Char)
    (h : pyContains s (cs "```") = false) :
    ∀ i, startsWith (cs "```") (List.drop i s) = false := by
  have hn : findAux (cs "```") s 0 = none := by
    cases hf : findAux (cs "```") s 0 with
    | none => rfl
    | some v => rw [pyContains, hf] at h; cases h
  exact (findAux_eq_none_iff (cs "```") s 0).mp hn

/-- Locating the closing fence: in `'\n' ++ payload ++ '\n' ++ "```"` with a
fence-free payload, the first fence marker sits exactly at the closing
fence, offset `2 + payload.length`. -/
theorem fence_close_find (p : List Char)
    (hp : ∀ i, startsWith (cs "```") (List.drop i p) = false) (i : Nat) :
    findAux (cs "```") ('\n' :: (p ++ '\n' :: cs "```")) i =
      some (i + (2 + p.length)) := by
  apply findAux_eq_some
  · intro j hj
    cases j with
    | zero => rfl
    | succ j' =>
      rw [List.drop_succ_cons]
      exact no_fence_in_payload_region p (cs "```") hp j' (by omega)
  · have h1 : List.drop (2 + p.length) ('\n' :: (p ++ '\n' :: cs "```")) =
        cs "```" := by
      rw [show 2 + p.length = (1 + p.length) + 1 from by omega, List.drop_succ_cons,
        show 1 + p.length = p.length + 1 from by omega]
      have := @List.drop_append Char p ('\n' :: cs "```") 1
      rw [this]
      rfl
    rw [h1]
    have := startsWith_self_append (cs "```") []
    rwa [List.append_nil] at this

/-- The JSON-tagged fence branch on a wrapped fence-free payload selects
exactly the stripped payload. -/
theorem selectJson_wrapJson (p : List Char)
    (hnf : pyContains p (cs "```") = false) :
    selectJson (wrapInJsonFence p) = pyStrip p := by
  have hp := no_match_of_not_contains p hnf
  have hw : wrapInJsonFence p = cs "```json" ++ ('\n' :: (p ++ '\n' :: cs "```")) := rfl
  rw [hw]
  set W := cs "```json" ++ ('\n' :: (p ++ '\n' :: cs "```")) with hWdef
  have hfind1 : findAux (cs "```json") W 0 = some 0 := by
    have h0 := findAux_eq_some (cs "```json") W 0 0
      (fun j hj => absurd hj (Nat.not_lt_zero j))
      (by rw [List.drop_zero]; exact startsWith_self_append _ _)
    simpa using h0
  have hc1 : pyContains W (cs "```json") = true := by
    rw [pyContains, hfind1]
    rfl
  have hb : pyFind W (cs "```json") 0 = 0 := by
    rw [pyFind, List.drop_zero, hfind1]
    rfl
  have hdrop7 : W.drop 7 = '\n' :: (p ++ '\n' :: cs "```") := by
    rw [hWdef, show (7 : ℕ) = (cs "```json").length from rfl, List.drop_left]
  have hd : pyFind W (cs "```") 7 = ((9 + p.length : ℕ) : Int) := by
    rw [pyFind, hdrop7, fence_close_find p hp 7]
    simp only []
    omega
  have hlen : W.length = p.length + 12 := by
    rw [hWdef]
    simp only [List.length_append, List.length_cons,
      show (cs "```json").length = 7 from rfl, show (cs "```").length = 3 from rfl]
    omega
  have hslice2 : pySlice W 7 ((9 + p.length : ℕ) : Int) = '\n' :: (p ++ ['\n']) := by
    rw [pySlice]
    have hbIdx : pyIdx W.length ((9 + p.length : ℕ) : Int) = 9 + p.length := by
      rw [pyIdx, if_neg (by omega), hlen]
      simp only [Int.toNat_natCast]
      omega
    have haIdx : pyIdx W.length 7 = 7 := by
      rw [pyIdx, if_neg (by norm_num), hlen]
      simp only [show ((7 : Int)).toNat = 7 from rfl]
      omega
    rw [hbIdx, haIdx, hWdef]
    have ht : (cs "```json" ++ ('\n' :: (p ++ '\n' :: cs "```"))).take (9 + p.length) =
        cs "```json" ++ ('\n' :: (p ++ ['\n'])) := by
      rw [show 9 + p.length = (cs "```json").length + (2 + p.length) from by
        rw [show (cs "```json").length = 7 from rfl]; omega]
      rw [List.take_append]
      congr 1
      rw [show (2 + p.length) = (1 + p.length) + 1 from by omega, List.take_succ_cons]
      congr 1
      rw [show 1 + p.length = p.length + 1 from by omega, List.take_append]
      rfl
    rw [ht, show (7 : ℕ) = (cs "```json").length from rfl, List.drop_left]
  rw [selectJson, if_pos hc1]
  dsimp only
  rw [hb]
  rw [show ((0 : Int) + 7) = (7 : Int) from by norm_num,
    show ((7 : Int)).toNat = 7 from rfl, hd, hslice2, pyStrip_fence_body]

/-- A generic fence wrap of a fence-free payload contains no ```json tag
anywhere. -/
theorem wrapGeneric_no_json_tag (p : List Char)
    (hp : ∀ i, startsWith (cs "```") (List.drop i p) = false) :
    findAux (cs "```json") (cs "```" ++ ('\n' :: (p ++ '\n' :: cs "```"))) 0 = none := by
  apply (findAux_eq_none_iff _ _ _).mpr
  intro j
  have hW2 : cs "```" ++ ('\n' :: (p ++ '\n' :: cs "```")) =
      '`' :: '`' :: '`' :: '\n' :: (p ++ '\n' :: cs "```") := rfl
  have htbj : cs "```json" = ['`', '`', '`', 'j', 's', 'o', 'n'] := rfl
  have hjn : ('j' == '\n') = false := rfl
  have hbn : ('`' == '\n') = false := rfl
  rw [hW2]
  rcases j with _ | _ | _ | _ | j'
  · simp [htbj, startsWith, hjn]
  · simp [htbj, startsWith, hbn]
  · simp [htbj, startsWith, hbn]
  · simp [htbj, startsWith, hbn]
  · simp only [List.drop_succ_cons]
    rcases Nat.lt_or_ge j' (p.length + 1) with hlt | hge
    · rcases hsw : startsWith (cs "```json") ((p ++ '\n' :: cs "```").drop j') with _ | _
      · rfl
      · exfalso
        have h3 := startsWith_of_append (cs "```") (cs "json") _
          (by rw [show cs "```" ++ cs "json" = cs "```json" from rfl]; exact hsw)
        rw [no_fence_in_payload_region p (cs "```") hp j' (by omega)] at h3
        cases h3
    · apply startsWith_false_of_short
      rw [List.length_drop]
      simp only [List.length_append, List.length_cons,
        show (cs "```").length = 3 from rfl, show (cs "```json").length = 7 from rfl]
      omega

/-- The generic fence branch on a wrapped fence-free payload selects exactly
the stripped payload. -/
theorem selectJson_wrapGeneric (p : List Char)
    (hnf : pyContains p (cs "```") = false) :
    selectJson (wrapInGenericFence p) = pyStrip p := by
  have hp := no_match_of_not_contains p hnf
  have hw : wrapInGenericFence p = cs "```" ++ ('\n' :: (p ++ '\n' :: cs "```")) := rfl
  rw [hw]
  set W := cs "```" ++ ('\n' :: (p ++ '\n' :: cs "```")) with hWdef
  have hc1 : pyContains W (cs "```json") = false := by
    rw [pyContains, wrapGeneric_no_json_tag p hp]
    rfl
  have hfind1 : findAux (cs "```") W 0 = some 0 := by
    have h0 := findAux_eq_some (cs "```") W 0 0
      (fun j hj => absurd hj (Nat.not_lt_zero j))
      (by rw [List.drop_zero]; exact startsWith_self_append _ _)
    simpa using h0
  have hc2 : pyContains W (cs "```") = true := by
    rw [pyContains, hfind1]
    rfl
  have hb : pyFind W (cs "```") 0 = 0 := by
    rw [pyFind, List.drop_zero, hfind1]
    rfl
  have hdrop3 : W.drop 3 = '\n' :: (p ++ '\n' :: cs "```") := by
    rw [hWdef, show (3 : ℕ) = (cs "```").length from rfl, List.drop_left]
  have hd : pyFind W (cs "```") 3 = ((5 + p.length : ℕ) : Int) := by
    rw [pyFind, hdrop3, fence_close_find p hp 3]
    simp only []
    omega
  have hlen : W.length = p.length + 8 := by
    rw [hWdef]
    simp only [List.length_append, List.length_cons,
      show (cs "```").length = 3 from rfl]
    omega
  have hslice2 : pySlice W 3 ((5 + p.length : ℕ) : Int) = '\n' :: (p ++ ['\n']) := by
    rw [pySlice]
    have hbIdx : pyIdx W.length ((5 + p.length : ℕ) : Int) = 5 + p.length := by
      rw [pyIdx, if_neg (by omega), hlen]
      simp only [Int.toNat_natCast]
      omega
    have haIdx : pyIdx W.length 3 = 3 := by
      rw [pyIdx, if_neg (by norm_num), hlen]
      simp only [show ((3 : Int)).toNat = 3 from rfl]
      omega
    rw [hbIdx, haIdx, hWdef]
    have ht : (cs "```" ++ ('\n' :: (p ++ '\n' :: cs "```"))).take (5 + p.length) =
        cs "```" ++ ('\n' :: (p ++ ['\n'])) := by
      rw [show 5 + p.length = (cs "```").length + (2 + p.length) from by
        rw [show (cs "```").length = 3 from rfl]; omega]
      rw [List.take_append]
      congr 1
      rw [show (2 + p.length) = (1 + p.length) + 1 from by omega, List.take_succ_cons]
      congr 1
      rw [show 1 + p.length = p.length + 1 from by omega, List.take_append]
      rfl
    rw [ht, show (3 : ℕ) = (cs "```").length from rfl, List.drop_left]
  rw [selectJson, if_neg (by rw [hc1]; exact fun h => Bool.noConfusion h), if_pos hc2]
  dsimp only
  rw [hb]
  rw [show ((0 : Int) + 3) = (3 : Int) from by norm_num,
    show ((3 : Int)).toNat = 3 from rfl, hd, hslice2, pyStrip_fence_body]

/-- C3 (amended): for every valid JSON object payload that carries the four
required keys, passes the success-path logging accesses, and contains no
``` fence marker of its own, extract yields the identical structured result
whether the payload arrives in a JSON-tagged fence, in a generic fence, or
bare — the three selection branches all recover the stripped payload. -/
theorem extract_fence_roundtrip (p : List Char) (kvs : List (List Char × Json))
    (hnf : pyContains p (cs "```") = false)
    (hparse : jsonLoads (pyStrip p) = some (Json.obj kvs))
    (hfields : checkFields requiredFields (Json.obj kvs) = none)
    (hlog : logEval (Json.obj kvs) = none) :
    parse_analysis_response (wrapInJsonFence p) = PyOutcome.ok (Json.obj kvs) ∧
    parse_analysis_response (wrapInGenericFence p) = PyOutcome.ok (Json.obj kvs) ∧
    parse_analysis_response p = PyOutcome.ok (Json.obj kvs) := by
  refine ⟨?_, ?_, ?_⟩
  · simp only [parse_analysis_response, selectJson_wrapJson p hnf, hparse, hfields, hlog]
  · simp only [parse_analysis_response, selectJson_wrapGeneric p hnf, hparse, hfields, hlog]
  · simp only [parse_analysis_response, selectJson_no_fence p hnf, hparse, hfields, hlog]

set_option maxRecDepth 8192 in
/-- Witness for the amended C3 on a concrete four-key payload. -/
theorem extract_fence_roundtrip_witness :
    parse_analysis_response (wrapInJsonFence goodPayload) =
      parse_analysis_response goodPayload ∧
    parse_analysis_response (wrapInGenericFence goodPayload) =
      parse_analysis_response goodPayload := by
  obtain ⟨h1, h2, h3⟩ := extract_fence_roundtrip goodPayload
    [(cs "provider", Json.str (cs "aws")),
     (cs "detected_components", Json.arr []),
     (cs "complexity", Json.str (cs "low")),
     (cs "estimated_monthly_cost", Json.str (cs "120"))]
    rfl rfl rfl rfl
  exact ⟨h1.trans h3.symm, h2.trans h3.symm⟩

set_option maxRecDepth 8192 in
/-- Counterexample to C3 as stated: a valid JSON payload that carries the
four required keys but contains a ``` fence marker inside one of its
strings is extracted differently wrapped and bare — both selections
mis-slice and fall back to defaults carrying different raw text. -/
theorem extract_fence_roundtrip_counterexample :
    parse_analysis_response (wrapInJsonFence fencePayload) ≠
      parse_analysis_response fencePayload := by
  have h1 : parse_analysis_response (wrapInJsonFence fencePayload) =
      PyOutcome.ok (defaultResult (wrapInJsonFence fencePayload)) := rfl
  have h2 : parse_analysis_response fencePayload =
      PyOutcome.ok (defaultResult fencePayload) := rfl
  intro h
  rw [h1, h2] at h
  injection h with h5
  have h6 := congrArg (fun j => resultField j (cs "raw_response")) h5
  have h7 : (some (Json.str ((wrapInJsonFence fencePayload).take 500)) : Option Json) =
      some (Json.str (fencePayload.take 500)) := h6
  injection h7 with h8
  injection h8 with h9
  exact absurd h9 (by decide)

/-- A Python slice to `-1` keeps everything from `a` up to but excluding the
final character. -/
theorem pySlice_neg_one (s : List Char) (a : Int) (ha : 0 ≤ a) :
    pySlice s a (-1) = List.drop a.toNat (List.take (s.length - 1) s) := by
  rw [pySlice]
  have h1 : pyIdx s.length (-1) = s.length - 1 := by
    rw [pyIdx, if_pos (by norm_num)]
    omega
  have h2 : pyIdx s.length a = min a.toNat s.length := by
    rw [pyIdx, if_neg (by omega)]
  rw [h1, h2]
  rcases Nat.le_total a.toNat s.length with hle | hge
  · rw [min_eq_left hle]
  · rw [min_eq_right hge]
    have hlen : (s.take (s.length - 1)).length = min (s.length - 1) s.length := by
      rw [List.length_take]
    rw [List.drop_eq_nil_of_le (by omega : (s.take (s.length - 1)).length ≤ s.length),
      List.drop_eq_nil_of_le (by omega : (s.take (s.length - 1)).length ≤ a.toNat)]

/-- A successful containment check puts the found index at or above zero. -/
theorem pyFind_nonneg_of_contains (s pat : List Char)
    (hc : pyContains s pat = true) : 0 ≤ pyFind s pat 0 := by
  rw [pyContains] at hc
  rcases hv : findAux pat s 0 with _ | v
  · rw [hv] at hc; cases hc
  · rw [pyFind, List.drop_zero, hv]
    show (0 : Int) ≤ (v : Int)
    omega

/-- C10: an input with a fence-open marker but no subsequent fence-close
marker does not fall back to the whole-text branch — the failed search
returns -1, so the selected substring runs from just after the open marker
up to but excluding the final character of the text, and the overall result
is whatever parsing that truncated substring produces (the failure default
when it does not parse). -/
theorem extract_unclosed_fence_truncates (s : List Char) :
    (pyContains s (cs "```json") = true →
      pyFind s (cs "```") (pyFind s (cs "```json") 0 + 7).toNat = -1 →
      selectJson s = pyStrip (List.drop (pyFind s (cs "```json") 0 + 7).toNat
        (List.take (s.length - 1) s))) ∧
    (pyContains s (cs "```json") = false →
      pyContains s (cs "```") = true →
      pyFind s (cs "```") (pyFind s (cs "```") 0 + 3).toNat = -1 →
      selectJson s = pyStrip (List.drop (pyFind s (cs "```") 0 + 3).toNat
        (List.take (s.length - 1) s))) ∧
    (jsonLoads (selectJson s) = none →
      parse_analysis_response s = PyOutcome.ok (defaultResult s)) := by
  refine ⟨?_, ?_, ?_⟩
  · intro hc hnone
    rw [selectJson, if_pos hc]
    dsimp only
    rw [hnone, pySlice_neg_one s _ (by have := pyFind_nonneg_of_contains s (cs "```json") hc; omega)]
  · intro hcj hc hnone
    rw [selectJson, if_neg (by rw [hcj]; exact fun h => Bool.noConfusion h), if_pos hc]
    dsimp only
    rw [hnone, pySlice_neg_one s _ (by have := pyFind_nonneg_of_contains s (cs "```") hc; omega)]
  · intro hbad
    rw [parse_analysis_response, hbad]

/-- Witness for C10 on a concrete fenced input with no closing fence. -/
theorem extract_unclosed_fence_truncates_witness :
    selectJson (cs "```json\n\x7b\"a\":\"b\"") =
      pyStrip (List.drop (pyFind (cs "```json\n\x7b\"a\":\"b\"") (cs "```json") 0 + 7).toNat
        (List.take ((cs "```json\n\x7b\"a\":\"b\"").length - 1) (cs "```json\n\x7b\"a\":\"b\""))) ∧
    parse_analysis_response (cs "```json\n\x7b\"a\":\"b\"") =
      PyOutcome.ok (defaultResult (cs "```json\n\x7b\"a\":\"b\"")) := by
  constructor
  · exact (extract_unclosed_fence_truncates (cs "```json\n\x7b\"a\":\"b\"")).1 rfl rfl
  · exact (extract_unclosed_fence_truncates (cs "```json\n\x7b\"a\":\"b\"")).2.2 rfl
